import Mathlib

/-!
# Verification of the grok-3-elements widget library

Shallow embedding, in Lean 4, of the state-coordination core of a small
library of composite UI widgets:

* `getSiblingOfSameTag` — the wrap-around same-tag sibling traversal
  (src/dom-utility/traversal.js, also inlined in the select variant);
* `CustomSelect` — the dropdown open/closed/selection/focus state machine
  (src/custom-elements/Select/custom-select.js);
* `InputRoot` — the input coordinator owning canonical value state and the
  internal change/focus/blur protocol (src/custom-elements/Input/input-root.js);
* `InputText` / `InputSlider` — the interface children mirroring the
  coordinator's value (src/custom-elements/Input/input-text.js).

JavaScript numbers are modelled as rationals (`ℚ`); `NaN` is modelled by
`Option ℚ` (with `none` for NaN) exactly where string-to-number conversion can
produce it.  DOM attribute values are strings; an absent attribute is `none`.
Deferred (`setTimeout` / `requestAnimationFrame`) work is outside the
synchronous transitions modelled here and is noted where elided.
-/

set_option maxRecDepth 4000

namespace GrokElements

/-- `Math.min` on (non-NaN) JS numbers. -/
def jsMin (a b : ℚ) : ℚ := if a ≤ b then a else b

/-- `Math.max` on (non-NaN) JS numbers. -/
def jsMax (a b : ℚ) : ℚ := if a ≤ b then b else a

/-- `Math.round` on (non-NaN) JS numbers: round half toward positive infinity,
i.e. `⌊x + 1/2⌋`. -/
def jsRound (x : ℚ) : ℤ := ⌊x + 1/2⌋

theorem jsMin_le_left (a b : ℚ) : jsMin a b ≤ a := by
  unfold jsMin; split_ifs with h <;> linarith

theorem jsMin_le_right (a b : ℚ) : jsMin a b ≤ b := by
  unfold jsMin; split_ifs with h <;> linarith

theorem le_jsMax_left (a b : ℚ) : a ≤ jsMax a b := by
  unfold jsMax; split_ifs with h <;> linarith

theorem le_jsMax_right (a b : ℚ) : b ≤ jsMax a b := by
  unfold jsMax; split_ifs with h <;> linarith

theorem jsMin_eq_left {a b : ℚ} (h : a ≤ b) : jsMin a b = a := if_pos h

theorem jsMax_eq_right {a b : ℚ} (h : a ≤ b) : jsMax a b = b := if_pos h

theorem jsMin_eq_right {a b : ℚ} (h : b ≤ a) : jsMin a b = b := by
  unfold jsMin; split_ifs with h' <;> [linarith; rfl]

theorem jsMax_eq_left {a b : ℚ} (h : b ≤ a) : jsMax a b = a := by
  unfold jsMax; split_ifs with h' <;> [linarith; rfl]

/-!
## InputSlider.#updateValueFromPosition
(src/custom-elements/Input/input-text.js, lines 546–571)

```js
const rect = this.getBoundingClientRect();
const percentage = Math.max(0, Math.min(1, (clientX - rect.left) / rect.width));
let rawValue = this.#min + percentage * (this.#max - this.#min);
const steps = Math.round((rawValue - this.#min) / this.#step);
const steppedValue = this.#min + steps * this.#step;
this.#value = Math.max(this.#min, Math.min(this.#max, steppedValue));
```

The pointer's offset fraction along the track, `(clientX - rect.left) /
rect.width`, is taken as the input `frac` (the layout rectangle itself is
outside the model).  The subsequent attribute writes and the internal-change
dispatch do not feed back into this computation.
-/

/-- Value-from-position computation of the slider, as a pure function of the
configured `min`, `max`, `step` and of the pointer's offset fraction along the
track. -/
def updateValueFromPosition (min max step frac : ℚ) : ℚ :=
  let percentage := jsMax 0 (jsMin 1 frac)
  let rawValue := min + percentage * (max - min)
  let steps := jsRound ((rawValue - min) / step)
  let steppedValue := min + steps * step
  jsMax min (jsMin max steppedValue)

/-- C2, amended: for `min < max` and `step > 0`, the slider's value-from-position
computation clamps the pointer fraction, maps it linearly, snaps to a step
multiple and re-clamps, and the result `v` always satisfies `min ≤ v ≤ max`;
moreover either `v - min` is a nonnegative integer multiple of `step`, or the
snapped value exceeded `max` and `v = max` (which need not be a step multiple
away from `min` — see `c2_step_multiple_counterexample`). -/
theorem c2_slider_value_bounds (min max step frac : ℚ)
    (hmm : min < max) (hstep : 0 < step) :
    min ≤ updateValueFromPosition min max step frac ∧
    updateValueFromPosition min max step frac ≤ max ∧
    ((∃ k : ℤ, 0 ≤ k ∧ updateValueFromPosition min max step frac = min + k * step) ∨
      updateValueFromPosition min max step frac = max) := by
  have hval : updateValueFromPosition min max step frac =
      jsMax min (jsMin max (min +
        (jsRound ((min + (jsMax 0 (jsMin 1 frac)) * (max - min) - min) / step) : ℚ) * step)) := rfl
  rw [hval]
  set p := jsMax 0 (jsMin 1 frac) with hp
  have hp0 : 0 ≤ p := le_jsMax_left 0 (jsMin 1 frac)
  set y := (min + p * (max - min) - min) / step with hy
  have hy0 : 0 ≤ y := by
    rw [hy]
    apply div_nonneg _ (le_of_lt hstep)
    have : 0 ≤ p * (max - min) := mul_nonneg hp0 (by linarith)
    linarith
  have hk0 : (0:ℤ) ≤ jsRound y := by
    rw [jsRound]
    exact Int.le_floor.mpr (by push_cast; linarith)
  set st := min + (jsRound y : ℚ) * step with hst
  have hstmin : min ≤ st := by
    have : (0:ℚ) ≤ (jsRound y : ℚ) := by exact_mod_cast hk0
    nlinarith
  by_cases hc : max ≤ st
  · rw [jsMin_eq_left hc, jsMax_eq_right (le_of_lt hmm)]
    exact ⟨le_of_lt hmm, le_refl _, Or.inr rfl⟩
  · push_neg at hc
    rw [jsMin_eq_right (le_of_lt hc), jsMax_eq_right hstmin]
    exact ⟨hstmin, le_of_lt hc, Or.inl ⟨jsRound y, hk0, rfl⟩⟩

/-- C2, counterexample to the claim as stated: with `min = 0`, `max = 10`,
`step = 4` and the pointer at the right end of the track (fraction `1`), the
snap rounds `10/4` up to `3` steps, the snapped value `12` is re-clamped to
`max = 10`, and `10 - 0` is not an integer multiple of `4`. -/
theorem c2_step_multiple_counterexample :
    updateValueFromPosition 0 10 4 1 = 10 ∧
    ∀ k : ℤ, updateValueFromPosition 0 10 4 1 - 0 ≠ k * 4 := by
  constructor
  · norm_num [updateValueFromPosition, jsMin, jsMax, jsRound]
  · intro k h
    rw [show updateValueFromPosition 0 10 4 1 = 10 by
      norm_num [updateValueFromPosition, jsMin, jsMax, jsRound]] at h
    have h2 : ((k * 4 : ℤ) : ℚ) = 10 := by push_cast; linarith
    have h3 : (k * 4 : ℤ) = 10 := by exact_mod_cast h2
    omega

/-- C2, witness: the amended bound theorem applied to the spec's concrete drag
scenario `min = 0`, `max = 100`, `step = 25` at 53% of the track. -/
theorem c2_slider_value_bounds_witness :
    ((0:ℚ) < 100 ∧ (0:ℚ) < 25) ∧
    (0 ≤ updateValueFromPosition 0 100 25 (53/100) ∧
      updateValueFromPosition 0 100 25 (53/100) ≤ 100 ∧
      ((∃ k : ℤ, 0 ≤ k ∧ updateValueFromPosition 0 100 25 (53/100) = 0 + k * 25) ∨
        updateValueFromPosition 0 100 25 (53/100) = 100)) :=
  ⟨⟨by norm_num, by norm_num⟩, c2_slider_value_bounds 0 100 25 (53/100) (by norm_num) (by norm_num)⟩

/-!
## getSiblingOfSameTag
(src/dom-utility/traversal.js, and the inlined copy in the select variant)

```js
function getSiblingOfSameTag(element, direction, test = "") {
  const parent = element.parentElement;
  if (!parent) return null;
  let sibling = element;
  while (true) {
    let candidate = direction > 0 ? sibling.nextElementSibling : sibling.previousElementSibling;
    if (!candidate)
      candidate = direction > 0 ? parent.firstElementChild : parent.lastElementChild;
    if (!(candidate instanceof HTMLElement)) return null;
    sibling = candidate;
    if (sibling === element) return null;
    if (sibling.tagName === element.tagName && (!test || sibling.matches(test))) return sibling;
  }
}
```

The parent's ordered child list is a `List Elem`; an element is its index in
that list.  A CSS selector test is a Boolean predicate on elements, `none`
standing for the default empty test (always passing).  The unbounded `while`
loop is run on fuel `children.length`, which the refinement theorem `c6_…`
shows is exactly enough: the traversal revisits the start after at most
`length` steps.
-/

/-- Element of the view tree: its tag name, whether it is an `HTMLElement`,
and the attributes the widgets read (`disabled`, `selected`, `aria-selected`,
`value`) plus its text content. -/
structure Elem where
  tag : String
  isHtml : Bool := true
  disabled : Bool := false
  selected : Bool := false
  ariaSelected : Bool := false
  value : String := ""
  text : String := ""
deriving DecidableEq

/-- `!test || sibling.matches(test)`: the optional CSS-selector test, where the
default empty test always passes. -/
def matchesTest (test : Option (Elem → Bool)) (e : Elem) : Bool :=
  match test with
  | none => true
  | some t => t e

/-- One traversal step: `nextElementSibling`, falling back to
`parent.firstElementChild` at the end (direction positive), or
`previousElementSibling`, falling back to `parent.lastElementChild`
(direction not positive). -/
def stepIdx (n : Nat) (dirPos : Bool) (j : Nat) : Nat :=
  if dirPos then (if j + 1 < n then j + 1 else 0)
  else (if j = 0 then n - 1 else j - 1)

/-- The `while (true)` loop of `getSiblingOfSameTag`, run on fuel.  Each
iteration advances one sibling, returns `none` on a non-HTML candidate or when
the traversal is back at the starting element, and returns the candidate when
its tag matches and the test passes. -/
def gsAux (children : List Elem) (tag : String) (test : Option (Elem → Bool))
    (start : Nat) (dirPos : Bool) : Nat → Nat → Option Nat
  | 0, _ => none
  | fuel + 1, j =>
    match children[stepIdx children.length dirPos j]? with
    | none => none
    | some e =>
      if e.isHtml = false then none
      else if stepIdx children.length dirPos j = start then none
      else if e.tag == tag && matchesTest test e then some (stepIdx children.length dirPos j)
      else gsAux children tag test start dirPos fuel (stepIdx children.length dirPos j)

/-- `getSiblingOfSameTag(element, direction, test)`.  The element is index
`start` in its parent's child list; `parent = none` models an element without
a parent (`if (!parent) return null`). -/
def getSiblingOfSameTag (parent : Option (List Elem)) (start : Nat)
    (direction : Int) (test : Option (Elem → Bool)) : Option Nat :=
  match parent with
  | none => none
  | some children =>
    match children[start]? with
    | none => none
    | some el => gsAux children el.tag test start (decide (0 < direction)) children.length start

/-- Modelled from the spec: the positions visited "in traversal order",
advancing by direction with wrap-around, one full cycle. -/
def traversalVisits (n : Nat) (dirPos : Bool) (start : Nat) : List Nat :=
  (List.range n).map (fun k => (stepIdx n dirPos)^[k + 1] start)

/-- Whether the element at position `c` has the wanted tag name and satisfies
the test. -/
def elemMatches (children : List Elem) (tag : String) (test : Option (Elem → Bool))
    (c : Nat) : Bool :=
  match children[c]? with
  | some e => e.tag == tag && matchesTest test e
  | none => false

/-- Modelled from the spec: "returns the first sibling, in traversal order,
whose role matches `node`'s role and which satisfies `predicate`", and
"returns none if traversal returns to the starting node before finding a
match" — the first match among the visits that precede the return to the
start. -/
def specSiblingSearch (children : List Elem) (tag : String)
    (test : Option (Elem → Bool)) (start : Nat) (dirPos : Bool) : Option Nat :=
  ((traversalVisits children.length dirPos start).takeWhile
      (fun c => decide (c ≠ start))).find? (elemMatches children tag test)

/-- The visit sequence as a recursive chain, used to relate the fueled loop to
`traversalVisits`. -/
def chainFrom (n : Nat) (dirPos : Bool) : Nat → Nat → List Nat
  | _, 0 => []
  | j, fuel + 1 => stepIdx n dirPos j :: chainFrom n dirPos (stepIdx n dirPos j) fuel

theorem stepIdx_lt (n : Nat) (dirPos : Bool) (j : Nat) (h : j < n) :
    stepIdx n dirPos j < n := by
  unfold stepIdx
  cases dirPos <;> simp <;> split <;> omega

theorem getElem?_eq_some_of_lt {l : List Elem} {c : Nat} (h : c < l.length) :
    ∃ e, l[c]? = some e := ⟨l[c], List.getElem?_eq_getElem h⟩

theorem gsAux_eq_scan (children : List Elem) (tag : String)
    (test : Option (Elem → Bool)) (start : Nat) (dirPos : Bool)
    (hhtml : ∀ e ∈ children, e.isHtml = true) :
    ∀ (fuel j : Nat), j < children.length →
      gsAux children tag test start dirPos fuel j =
        ((chainFrom children.length dirPos j fuel).takeWhile
            (fun c => decide (c ≠ start))).find? (elemMatches children tag test) := by
  intro fuel
  induction fuel with
  | zero => intro j hj; simp [gsAux, chainFrom]
  | succ fuel ih =>
    intro j hj
    have hc : stepIdx children.length dirPos j < children.length := stepIdx_lt _ _ _ hj
    obtain ⟨e, he⟩ := getElem?_eq_some_of_lt hc
    have hmem : e ∈ children := by
      have := List.getElem?_eq_some_iff.mp he
      obtain ⟨hlt, heq⟩ := this
      exact heq ▸ List.getElem_mem hlt
    have hhtml_e : e.isHtml = true := hhtml e hmem
    rw [gsAux, chainFrom, he]
    by_cases hstart : stepIdx children.length dirPos j = start
    · simp [hhtml_e, hstart, List.takeWhile]
    · by_cases hmatch : (e.tag == tag && matchesTest test e) = true
      · simp only [hhtml_e, Bool.true_eq_false, if_false, hstart, if_neg hstart, hmatch, if_true]
        simp [List.takeWhile, hstart, List.find?, elemMatches, he, hmatch]
      · simp only [hhtml_e, Bool.true_eq_false, if_false, if_neg hstart, hmatch]
        rw [ih _ hc]
        simp [List.takeWhile, hstart, List.find?, elemMatches, he, hmatch]

theorem chainFrom_eq_map_range (n : Nat) (dirPos : Bool) :
    ∀ (fuel j : Nat), chainFrom n dirPos j fuel =
      (List.range fuel).map (fun k => (stepIdx n dirPos)^[k + 1] j) := by
  intro fuel
  induction fuel with
  | zero => intro j; simp [chainFrom]
  | succ fuel ih =>
    intro j
    rw [chainFrom, ih (stepIdx n dirPos j), List.range_succ_eq_map]
    simp only [List.map_cons, List.map_map, Function.iterate_one, Nat.zero_add]
    congr 1

/-- C6 (confirmed): for every element with a parent (whose children are all
HTML elements), `getSiblingOfSameTag` returns exactly the first position, in
wrap-around traversal order, whose tag name equals the element's tag and which
satisfies the test (defaulting to always true) — and `none` when the traversal
returns to the starting element without a match, including with zero or one
qualifying siblings.  Termination is inherent: the fueled loop is shown
equivalent to a scan of one bounded traversal cycle. -/
theorem c6_getSiblingOfSameTag_spec (children : List Elem) (start : Nat) (el : Elem)
    (direction : Int) (test : Option (Elem → Bool))
    (hstart : children[start]? = some el)
    (hhtml : ∀ e ∈ children, e.isHtml = true) :
    getSiblingOfSameTag (some children) start direction test =
      specSiblingSearch children el.tag test start (decide (0 < direction)) := by
  have hlt : start < children.length := (List.getElem?_eq_some_iff.mp hstart).1
  simp only [getSiblingOfSameTag, hstart]
  rw [gsAux_eq_scan children el.tag test start (decide (0 < direction)) hhtml
    children.length start hlt]
  unfold specSiblingSearch traversalVisits
  rw [chainFrom_eq_map_range]

theorem gsAux_ne_start (children : List Elem) (tag : String)
    (test : Option (Elem → Bool)) (start : Nat) (dirPos : Bool) :
    ∀ (fuel j r : Nat), gsAux children tag test start dirPos fuel j = some r → r ≠ start := by
  intro fuel
  induction fuel with
  | zero => intro j r h; simp [gsAux] at h
  | succ fuel ih =>
    intro j r h
    rw [gsAux] at h
    cases he : children[stepIdx children.length dirPos j]? with
    | none => simp only [he] at h; exact absurd h (by simp)
    | some e =>
      simp only [he] at h
      by_cases h1 : e.isHtml = false
      · simp [h1] at h
      · rw [if_neg h1] at h
        by_cases h2 : stepIdx children.length dirPos j = start
        · rw [if_pos h2] at h; simp at h
        · rw [if_neg h2] at h
          by_cases h3 : (e.tag == tag && matchesTest test e) = true
          · rw [if_pos h3] at h
            have : r = stepIdx children.length dirPos j := by
              exact (Option.some.injEq _ _ ▸ h).symm
            exact this ▸ h2
          · rw [if_neg h3] at h
            exact ih _ _ h

/-- C9 (confirmed): `getSiblingOfSameTag` never returns its starting element —
whenever it returns a position, that position differs from `start` (the
loop-back check precedes the match check), so when the starting element is the
only matching child the result is `none`, never the element itself. -/
theorem c9_getSiblingOfSameTag_ne_start (parent : Option (List Elem)) (start : Nat)
    (direction : Int) (test : Option (Elem → Bool)) (r : Nat)
    (h : getSiblingOfSameTag parent start direction test = some r) : r ≠ start := by
  cases parent with
  | none => simp [getSiblingOfSameTag] at h
  | some children =>
    cases hel : children[start]? with
    | none => simp only [getSiblingOfSameTag, hel] at h; exact absurd h (by simp)
    | some el =>
      simp only [getSiblingOfSameTag, hel] at h
      exact gsAux_ne_start children el.tag test start (decide (0 < direction))
        children.length start r h

/-- Three same-tag siblings, the middle one disabled: the child list used to
instantiate the traversal theorems on concrete data. -/
def demoChildren : List Elem :=
  [{tag := "T"}, {tag := "T", disabled := true}, {tag := "T"}]

/-- C6, witness: the refinement theorem applied to a concrete three-child list
with the middle sibling disabled and the `:not([disabled])` test; both sides
evaluate. -/
theorem c6_getSiblingOfSameTag_spec_witness :
    (demoChildren[0]? = some {tag := "T"} ∧ ∀ e ∈ demoChildren, e.isHtml = true) ∧
    getSiblingOfSameTag (some demoChildren) 0 1 (some (fun e => !e.disabled)) =
      specSiblingSearch demoChildren "T" (some (fun e => !e.disabled)) 0 true :=
  ⟨⟨by decide, by decide⟩,
    c6_getSiblingOfSameTag_spec demoChildren 0 {tag := "T"} 1 (some (fun e => !e.disabled))
      (by decide) (by decide)⟩

/-- C9, witness: on the concrete three-child list the traversal from position 0
returns position 1, which indeed differs from the start. -/
theorem c9_getSiblingOfSameTag_ne_start_witness :
    getSiblingOfSameTag (some demoChildren) 0 1 none = some 1 ∧ (1 : Nat) ≠ 0 :=
  ⟨by decide, c9_getSiblingOfSameTag_ne_start (some demoChildren) 0 1 none 1 (by decide)⟩

/-!
## CustomSelect
(src/custom-elements/Select/custom-select.js)

State: the `open` attribute (`isOpen`), the `#selectedItem` and `#focusedItem`
element references (indices into the group's option list), the option
elements' `selected` / `aria-selected` attribute markers, and the trigger's
displayed label.  `#focusItem` ultimately records the focused item through the
`focusin` handler; its net synchronous effect is captured directly.  DOM focus
itself, scrolling, and the `focusout` one-tick recheck are outside the model.
The option list stands for the sibling list traversed by
`getSiblingOfSameTag`; all its members are `custom-option` HTML elements, as
in the markup contract.
-/

/-- Tag name shared by all option elements (`tagName` of `custom-option`). -/
def customOptionTag : String := "CUSTOM-OPTION"

/-- Observable state of a `custom-select`. -/
structure SelectState where
  isOpen : Bool
  selectedItem : Option Nat
  focusedItem : Option Nat
  options : List Elem
  triggerLabel : Option String
  ariaExpanded : Bool
deriving DecidableEq

/-- Keys the keydown handler distinguishes. -/
inductive SKey
  | arrowDown | arrowUp | enter | space | escape | tab | other
deriving DecidableEq

/-- Externally observable notifications of the select (the bubbling `change`
event with the selected value in its detail). -/
inductive SEvent
  | change (value : Option String)
deriving DecidableEq

/-- Attribute mutation on the element at index `i` of a child list (no-op when
the index is out of range, which never happens for live references). -/
def listSet (l : List Elem) (i : Nat) (f : Elem → Elem) : List Elem :=
  match l[i]? with
  | some e => l.set i (f e)
  | none => l

/-- `querySelector("custom-option:not([disabled])")`: first eligible option. -/
def firstEligible (opts : List Elem) : Option Nat :=
  opts.findIdx? (fun e => e.tag == customOptionTag && !e.disabled)

/-- `get selectedValue()`: the selected item's `value` attribute, or null. -/
def selectedValueOf (s : SelectState) : Option String :=
  match s.selectedItem with
  | some i =>
    match s.options[i]? with
    | some e => some e.value
    | none => none
  | none => none

/-- `#updateTrigger()`: copy the selected item's text content to the trigger's
label (the parallel `aria-label` mirrors it). -/
def updateTrigger (s : SelectState) : SelectState :=
  match s.selectedItem with
  | some i =>
    match s.options[i]? with
    | some e => {s with triggerLabel := some e.text}
    | none => s
  | none => s

/-- `#focusItem(item)` combined with the `focusin` listener that records
`#focusedItem`: no-op on a missing or disabled item, otherwise the item
becomes the focused item. -/
def focusItem (s : SelectState) : Option Nat → SelectState
  | none => s
  | some i =>
    match s.options[i]? with
    | some e => if e.disabled then s else {s with focusedItem := some i}
    | none => s

/-- `#updateUI()` (run from `attributeChangedCallback` on `open`): reflect
`aria-expanded` and, when opening, focus the selected item or the first
eligible option. -/
def updateUI (s : SelectState) : SelectState :=
  let s1 : SelectState := {s with ariaExpanded := s.isOpen}
  if s1.isOpen then focusItem s1 (s1.selectedItem <|> firstEligible s1.options) else s1

/-- `open()`: `toggleAttribute("open", true)`; the callback runs only when the
attribute actually changes. -/
def openSelect (s : SelectState) : SelectState :=
  if s.isOpen then s else updateUI {s with isOpen := true}

/-- `close()`: `toggleAttribute("open", false)`. -/
def closeSelect (s : SelectState) : SelectState :=
  if s.isOpen then updateUI {s with isOpen := false} else s

/-- `toggle()`: flip the `open` attribute. -/
def toggleSelect (s : SelectState) : SelectState :=
  if s.isOpen then closeSelect s else openSelect s

/-- `#setSelected(item)`: unmark the previous selection, move the reference,
and — only for a non-disabled item different from the previous reference —
mark it, update the trigger, and emit one `change` notification.  Note the
unmarking happens before the `item !== currentItem` guard. -/
def setSelected (s : SelectState) (item : Nat) : SelectState × List SEvent :=
  let opts1 := match s.selectedItem with
    | some p => listSet s.options p (fun e => {e with selected := false, ariaSelected := false})
    | none => s.options
  let currentItem := s.selectedItem
  let s1 : SelectState := {s with options := opts1, selectedItem := some item}
  match s1.options[item]? with
  | none => (s1, [])
  | some e =>
    if !e.disabled && decide (some item ≠ currentItem) then
      let opts2 := listSet s1.options item (fun e2 => {e2 with selected := true, ariaSelected := true})
      let s2 : SelectState := {s1 with options := opts2}
      let s3 := updateTrigger s2
      (s3, [SEvent.change (selectedValueOf s3)])
    else (s1, [])

/-- `#handleArrowNavigation(event)`: from `#getCurrentNavigationElement()`,
find the next/previous `:not([disabled])` sibling with wrap-around; while open
only move focus, while closed select it. -/
def handleArrowNavigation (s : SelectState) (k : SKey) : SelectState × List SEvent :=
  let current := if s.isOpen
    then s.focusedItem <|> s.selectedItem <|> firstEligible s.options
    else s.selectedItem <|> firstEligible s.options
  match current with
  | none => (s, [])
  | some cur =>
    let dir : Int := if k = SKey.arrowDown then 1 else -1
    match getSiblingOfSameTag (some s.options) cur dir (some (fun e => !e.disabled)) with
    | none => (s, [])
    | some sib =>
      if s.isOpen then (focusItem s (some sib), []) else setSelected s sib

/-- `#handleOpenKeydown(event)`. -/
def handleOpenKeydown (s : SelectState) (k : SKey) : SelectState × List SEvent :=
  match k with
  | SKey.arrowDown | SKey.arrowUp => handleArrowNavigation s k
  | SKey.enter | SKey.space =>
    match s.focusedItem with
    | some i =>
      match s.options[i]? with
      | some e =>
        if !e.disabled then
          let r := setSelected s i
          (closeSelect r.1, r.2)
        else (s, [])
      | none => (s, [])
    | none => (s, [])
  | SKey.escape | SKey.tab => (closeSelect s, [])
  | SKey.other => (s, [])

/-- `#handleClosedKeydown(event)`: Enter/Space on the trigger opens, Escape on
the trigger blurs it (no state change), and ArrowDown/ArrowUp run the arrow
navigation whatever the target. -/
def handleClosedKeydown (s : SelectState) (k : SKey) (targetIsTrigger : Bool) :
    SelectState × List SEvent :=
  if targetIsTrigger ∧ (k = SKey.enter ∨ k = SKey.space) then (openSelect s, [])
  else if targetIsTrigger ∧ k = SKey.escape then (s, [])
  else if k = SKey.arrowDown ∨ k = SKey.arrowUp then handleArrowNavigation s k
  else (s, [])

/-- `#onKeydown(event)`: dispatch on the `open` attribute. -/
def onKeydown (s : SelectState) (k : SKey) (targetIsTrigger : Bool) :
    SelectState × List SEvent :=
  if s.isOpen then handleOpenKeydown s k else handleClosedKeydown s k targetIsTrigger

/-- `#onClick(event)` with an option as target: `closest` with the
`custom-option:not([disabled])` selector, then the not-already-selected guard,
then select and close. -/
def onClickOption (s : SelectState) (i : Nat) : SelectState × List SEvent :=
  match s.options[i]? with
  | none => (s, [])
  | some e =>
    if e.tag == customOptionTag && !e.disabled && !e.selected then
      let r := setSelected s i
      (closeSelect r.1, r.2)
    else (s, [])

/-- Option `A` of the spec's keyboard scenario. -/
def optA : Elem := {tag := customOptionTag, value := "A", text := "A"}

/-- Option `B` (disabled) of the spec's keyboard scenario. -/
def optB : Elem := {tag := customOptionTag, value := "B", text := "B", disabled := true}

/-- Option `C` of the spec's keyboard scenario. -/
def optC : Elem := {tag := customOptionTag, value := "C", text := "C"}

/-- Closed group with options `[A, B(disabled), C]` and nothing selected. -/
def c3Start : SelectState :=
  {isOpen := false, selectedItem := none, focusedItem := none,
   options := [optA, optB, optC], triggerLabel := none, ariaExpanded := false}

/-- One ArrowDown key press with the trigger focused. -/
def pressArrowDown (s : SelectState) : SelectState := (onKeydown s SKey.arrowDown true).1

/-- C3, counterexample to the claim as stated: from `[A, B(disabled), C]` with
none selected, the first closed-state ArrowDown selects `C` (index 2), not `A`
(index 0) — the fallback current element is `A` itself and the traversal
starts by advancing past it. -/
theorem c3_first_press_counterexample :
    (pressArrowDown c3Start).selectedItem = some 2 ∧
    (pressArrowDown c3Start).selectedItem ≠ some 0 := by decide

/-- C3, amended: in the `[A, B(disabled), C]` scenario the three successive
closed-state ArrowDown presses select `C`, then wrap to `A`, then return to
`C` (each press skipping disabled `B` and leaving the group closed): the
navigation starts from `A` as the current element and moves off it. -/
theorem c3_closed_arrowdown_sequence :
    (pressArrowDown c3Start).isOpen = false ∧
    (pressArrowDown c3Start).selectedItem = some 2 ∧
    (pressArrowDown (pressArrowDown c3Start)).isOpen = false ∧
    (pressArrowDown (pressArrowDown c3Start)).selectedItem = some 0 ∧
    (pressArrowDown (pressArrowDown (pressArrowDown c3Start))).isOpen = false ∧
    (pressArrowDown (pressArrowDown (pressArrowDown c3Start))).selectedItem = some 2 := by
  decide

theorem focusItem_frame (s : SelectState) (o : Option Nat) :
    (focusItem s o).selectedItem = s.selectedItem ∧
    (focusItem s o).options = s.options ∧
    (focusItem s o).isOpen = s.isOpen ∧
    (focusItem s o).triggerLabel = s.triggerLabel ∧
    ((focusItem s o).focusedItem = s.focusedItem ∨
      ∃ j e, (focusItem s o).focusedItem = some j ∧ s.options[j]? = some e ∧
        e.disabled = false) := by
  cases o with
  | none => exact ⟨rfl, rfl, rfl, rfl, Or.inl rfl⟩
  | some i =>
    cases h : s.options[i]? with
    | none => simp [focusItem, h]
    | some e =>
      by_cases hd : e.disabled = true
      · simp [focusItem, h, hd]
      · have hd' : e.disabled = false := by simpa using hd
        refine ⟨?_, ?_, ?_, ?_, Or.inr ⟨i, e, ?_, h, hd'⟩⟩ <;> simp [focusItem, h, hd']

/-- C7 (confirmed): while the group is open, ArrowDown/ArrowUp leave
`selectedItem`, the option markers, the open state and the trigger label
unchanged and emit no notification; only `focusedItem` may change, and then
only to a non-disabled option. -/
theorem c7_open_arrows_only_focus (s : SelectState) (k : SKey) (t : Bool)
    (hopen : s.isOpen = true) (hk : k = SKey.arrowDown ∨ k = SKey.arrowUp) :
    (onKeydown s k t).1.selectedItem = s.selectedItem ∧
    (onKeydown s k t).1.options = s.options ∧
    (onKeydown s k t).1.isOpen = true ∧
    (onKeydown s k t).1.triggerLabel = s.triggerLabel ∧
    (onKeydown s k t).2 = [] ∧
    ((onKeydown s k t).1.focusedItem = s.focusedItem ∨
      ∃ j e, (onKeydown s k t).1.focusedItem = some j ∧ s.options[j]? = some e ∧
        e.disabled = false) := by
  have honk : onKeydown s k t = handleArrowNavigation s k := by
    rcases hk with rfl | rfl <;> simp [onKeydown, hopen, handleOpenKeydown]
  rw [honk]
  unfold handleArrowNavigation
  simp only [hopen, if_true]
  cases hcur : (s.focusedItem <|> s.selectedItem <|> firstEligible s.options) with
  | none => simp [hcur, hopen]
  | some cur =>
    simp only [hcur]
    cases hsib : getSiblingOfSameTag (some s.options) cur
        (if k = SKey.arrowDown then 1 else -1) (some (fun e => !e.disabled)) with
    | none => simp [hsib, hopen]
    | some sib =>
      simp only [hsib]
      obtain ⟨h1, h2, h3, h4, h5⟩ := focusItem_frame s (some sib)
      refine ⟨h1, h2, ?_, h4, by trivial, h5⟩
      rw [h3, hopen]

/-- Open group over `[A, B(disabled), C]` with `A` selected and focused. -/
def c7Open : SelectState :=
  {isOpen := true, selectedItem := some 0, focusedItem := some 0,
   options := [optA, optB, optC], triggerLabel := some "A", ariaExpanded := true}

/-- C7, witness: the frame theorem applied to a concrete open group receiving
ArrowDown. -/
theorem c7_open_arrows_only_focus_witness :
    (c7Open.isOpen = true ∧ (SKey.arrowDown = SKey.arrowDown ∨ SKey.arrowDown = SKey.arrowUp)) ∧
    ((onKeydown c7Open SKey.arrowDown false).1.selectedItem = c7Open.selectedItem ∧
      (onKeydown c7Open SKey.arrowDown false).1.options = c7Open.options ∧
      (onKeydown c7Open SKey.arrowDown false).1.isOpen = true ∧
      (onKeydown c7Open SKey.arrowDown false).1.triggerLabel = c7Open.triggerLabel ∧
      (onKeydown c7Open SKey.arrowDown false).2 = [] ∧
      ((onKeydown c7Open SKey.arrowDown false).1.focusedItem = c7Open.focusedItem ∨
        ∃ j e, (onKeydown c7Open SKey.arrowDown false).1.focusedItem = some j ∧
          c7Open.options[j]? = some e ∧ e.disabled = false)) :=
  ⟨⟨rfl, Or.inl rfl⟩,
    c7_open_arrows_only_focus c7Open SKey.arrowDown false rfl (Or.inl rfl)⟩

theorem listSet_getElem?_self (l : List Elem) (i : Nat) (f : Elem → Elem) :
    (listSet l i f)[i]? = (l[i]?).map f := by
  unfold listSet
  cases h : l[i]? with
  | none => simp [h]
  | some e =>
    have hlt : i < l.length := (List.getElem?_eq_some_iff.mp h).1
    simp [List.getElem?_set_eq_of_lt _ (by simpa using hlt)]

/-- C4, amended: selecting the already-selected eligible option emits no
second `change` notification and leaves `selectedItem` and the trigger label
unchanged; through the click handler (which guards on the `selected`
attribute) it is a complete no-op, but `#setSelected` itself, reached e.g. via
Enter while open with the selected item focused, removes the option's
`selected`/`aria-selected` markers without re-adding them, because the
unmarking precedes the `item !== currentItem` guard. -/
theorem c4_reselect (s : SelectState) (i : Nat) :
    (∀ e, s.options[i]? = some e → e.selected = true → onClickOption s i = (s, [])) ∧
    (s.selectedItem = some i →
      (setSelected s i).2 = [] ∧
      (setSelected s i).1.selectedItem = s.selectedItem ∧
      (setSelected s i).1.triggerLabel = s.triggerLabel ∧
      (setSelected s i).1.options =
        listSet s.options i (fun e => {e with selected := false, ariaSelected := false})) := by
  constructor
  · intro e he hsel
    simp [onClickOption, he, hsel]
  · intro hsel
    unfold setSelected
    rw [hsel]
    simp only [listSet_getElem?_self]
    cases h : s.options[i]? with
    | none => simp [h]
    | some e => simp [h]

/-- Option `A` carrying the `selected` and `aria-selected` markers. -/
def optASel : Elem := {optA with selected := true, ariaSelected := true}

/-- Closed group with `A` selected (marker set), `B` disabled, `C` available. -/
def c4Start : SelectState :=
  {isOpen := false, selectedItem := some 0, focusedItem := none,
   options := [optASel, optB, optC], triggerLabel := some "A", ariaExpanded := false}

/-- C4, counterexample to the claim as stated: opening the group with Enter
focuses the selected option `A`; pressing Enter again re-selects it — no
`change` is emitted, but the option's `selected` marker, `true` before, is
`false` afterwards, so the observable selected marker is not unchanged. -/
theorem c4_reselect_counterexample :
    ((onKeydown c4Start SKey.enter true).1.focusedItem = some 0 ∧
      (onKeydown c4Start SKey.enter true).1.selectedItem = some 0 ∧
      (onKeydown c4Start SKey.enter true).2 = []) ∧
    ((onKeydown (onKeydown c4Start SKey.enter true).1 SKey.enter false).2 = [] ∧
      ((onKeydown (onKeydown c4Start SKey.enter true).1 SKey.enter false).1.selectedItem
        = some 0) ∧
      (((onKeydown (onKeydown c4Start SKey.enter true).1 SKey.enter false).1.options[0]?).map
        Elem.selected = some false) ∧
      ((c4Start.options[0]?).map Elem.selected = some true)) := by decide

/-- C4, witness: the amended theorem applied to the concrete group with `A`
selected — clicking `A` is a no-op, and `#setSelected` on `A` emits nothing
while only clearing the marker. -/
theorem c4_reselect_witness :
    (c4Start.options[0]? = some optASel ∧ optASel.selected = true ∧
      c4Start.selectedItem = some 0) ∧
    onClickOption c4Start 0 = (c4Start, []) ∧
    ((setSelected c4Start 0).2 = [] ∧
      (setSelected c4Start 0).1.selectedItem = c4Start.selectedItem ∧
      (setSelected c4Start 0).1.triggerLabel = c4Start.triggerLabel ∧
      (setSelected c4Start 0).1.options =
        listSet c4Start.options 0 (fun e => {e with selected := false, ariaSelected := false})) :=
  ⟨⟨by decide, by decide, by decide⟩,
    (c4_reselect c4Start 0).1 optASel (by decide) (by decide),
    (c4_reselect c4Start 0).2 (by decide)⟩

/-!
## InputRoot and its interface children
(src/custom-elements/Input/input-root.js, input-text.js)

The coordinator's state is its canonical `#value` string, the reflected
`value` attribute, and the `disabled`/`readonly`/`required` attribute flags.
Interface children are the text child (whose mirrored value lives in its
`value` attribute and embedded input element) and the slider child (whose
mirrored value is its numeric `#value`, clamped on every attribute write).
JS string-to-number conversion (`Number(...)`) is modelled by `jsNumber`,
covering the sign/digits/decimal-point grammar; `none` models `NaN`.
`Math.min`/`Math.max` propagate `NaN`, modelled by `jsClampN` on `Option ℚ`.
The deferred `setTimeout` re-render tricks (input-root.js and the slider's
deferred `#updatePosition`) are asynchronous and outside the synchronous
transitions modelled here; the flag toggles' aria mirroring on children is
likewise elided as it never feeds back into any value read.
-/

/-- `Number(s)` on a decimal string: empty string is `0`, an optional sign
followed by digits with at most one decimal point parses exactly, anything
else is `NaN` (`none`). -/
def digitsToNat (cs : List Char) : Nat :=
  cs.foldl (fun n c => n * 10 + (c.toNat - 48)) 0

/-- Whether every character is a decimal digit. -/
def allDigits (cs : List Char) : Bool := cs.all (fun c => c.isDigit)

/-- Split a character list at the first decimal point, if any. -/
def splitOnDot : List Char → List Char × Option (List Char)
  | [] => ([], none)
  | c :: cs =>
    if c = '.' then ([], some cs)
    else
      let r := splitOnDot cs
      (c :: r.1, r.2)

/-- JS `Number(...)` string conversion on the decimal grammar the widgets
exchange; `none` models `NaN`. -/
def jsNumber (s : String) : Option ℚ :=
  let cs := s.data
  if cs = [] then some 0
  else
    let signed : ℚ × List Char :=
      match cs with
      | '-' :: rest => (-1, rest)
      | '+' :: rest => (1, rest)
      | _ => (1, cs)
    match splitOnDot signed.2 with
    | (intPart, none) =>
      if intPart ≠ [] ∧ allDigits intPart then
        some (signed.1 * (digitsToNat intPart : ℚ))
      else none
    | (intPart, some fracPart) =>
      if (intPart ≠ [] ∨ fracPart ≠ []) ∧ allDigits intPart ∧ allDigits fracPart then
        some (signed.1 * ((digitsToNat intPart : ℚ)
          + (digitsToNat fracPart : ℚ) / 10 ^ fracPart.length))
      else none

/-- `Math.max(lo, Math.min(hi, x))` with `NaN` propagation. -/
def jsClampN (lo hi : ℚ) : Option ℚ → Option ℚ
  | none => none
  | some x => some (jsMax lo (jsMin hi x))

theorem jsClamp_eq_self {lo hi q : ℚ} (h1 : lo ≤ q) (h2 : q ≤ hi) :
    jsMax lo (jsMin hi q) = q := by
  unfold jsMin jsMax; split_ifs <;> linarith

/-- State of an `input-text` child: its `value` attribute, the embedded input
element's content, and the pushed-down flags. -/
structure TextChild where
  valueAttr : Option String := none
  inputValue : String := ""
  disabled : Bool := false
  readonly : Bool := false
  required : Bool := false
deriving DecidableEq

/-- State of an `input-slider` child: configuration, mirrored numeric value
(`none` models `NaN`), the `value` attribute, `aria-valuenow`, and flags. -/
structure SliderChild where
  min : ℚ := 0
  max : ℚ := 100
  step : ℚ := 1
  value : Option ℚ := some 0
  valueAttr : Option String := none
  ariaValueNow : Option ℚ := none
  disabled : Bool := false
  readonly : Bool := false
  required : Bool := false
deriving DecidableEq

/-- An interface child of the coordinator. -/
inductive Child
  | text (t : TextChild)
  | slider (c : SliderChild)
deriving DecidableEq

/-- `InputText.attributeChangedCallback` for `value`: record the attribute and
copy it into the input element when they differ. -/
def textOnValueAttr (t : TextChild) (v : String) : TextChild :=
  {t with valueAttr := some v,
          inputValue := if t.inputValue ≠ v then v else t.inputValue}

/-- `InputSlider.attributeChangedCallback` for `value`:
`#value = Number(newValue || min)` then clamp into `[min, max]`, reflecting
`aria-valuenow` (the deferred `#updatePosition` is asynchronous). -/
def sliderOnValueAttr (c : SliderChild) (v : String) : SliderChild :=
  let n : Option ℚ := if v = "" then some c.min else jsNumber v
  let clamped := jsClampN c.min c.max n
  {c with value := clamped, valueAttr := some v, ariaValueNow := clamped}

/-- The per-child body of `InputRoot.#updateInterfaceState`: set the child's
`value` attribute when it differs (running the child's callback), then toggle
the `disabled`/`readonly`/`required` attributes to the coordinator's flags. -/
def pushChild (v : String) (d r req : Bool) : Child → Child
  | Child.text t =>
    let t1 := if t.valueAttr = some v then t else textOnValueAttr t v
    Child.text {t1 with disabled := d, readonly := r, required := req}
  | Child.slider c =>
    let c1 := if c.valueAttr = some v then c else sliderOnValueAttr c v
    Child.slider {c1 with disabled := d, readonly := r, required := req}

/-- Canonical state of an `input-root` coordinator. -/
structure RootState where
  value : String := ""
  valueAttr : Option String := none
  disabled : Bool := false
  readonly : Bool := false
  required : Bool := false
deriving DecidableEq

/-- Externally visible notifications re-emitted by the coordinator. -/
inductive REvent
  | input | change | blur | focus
deriving DecidableEq

/-- `InputRoot.#updateInterfaceState`: push value and flags to every
interface child. -/
def updateInterfaceState (s : RootState) (children : List Child) : List Child :=
  children.map (pushChild s.value s.disabled s.readonly s.required)

/-- The `value` setter: `#value = String(newValue)`, reflect the attribute,
and push the state down (the attribute callback's own push is idempotent on
top of the setter's explicit one). -/
def setValueRoot (s : RootState) (children : List Child) (v : String) :
    RootState × List Child :=
  let s1 : RootState := {s with value := v, valueAttr := some v}
  (s1, updateInterfaceState s1 children)

/-- `InputRoot.#handleInternalChange`: when the payload differs from the
canonical value, store it, reflect the attribute (whose callback refreshes the
children), and dispatch one `input` event; otherwise do nothing.  There is no
`disabled` check. -/
def handleInternalChange (s : RootState) (children : List Child) (newValue : String) :
    RootState × List Child × List REvent :=
  if s.value ≠ newValue then
    let s1 : RootState := {s with value := newValue, valueAttr := some newValue}
    (s1, updateInterfaceState s1 children, [REvent.input])
  else (s, children, [])

/-- `InputRoot.#handleInternalFocus`: re-emit `focus`. -/
def handleInternalFocus (s : RootState) : RootState × List REvent :=
  (s, [REvent.focus])

/-- `InputRoot.#handleInternalBlur`: dispatch `change` then `blur`, touching
no state. -/
def handleInternalBlur (s : RootState) : RootState × List REvent :=
  (s, [REvent.change, REvent.blur])

/-- The text child's `value` getter: `getAttribute('value') || ''`. -/
def textValueGetter (t : TextChild) : String := t.valueAttr.getD ""

/-- The slider child's `value` getter: its mirrored numeric `#value`. -/
def sliderValueGetter (c : SliderChild) : Option ℚ := c.value

/-- Numeric mirrored value of a child, for stating the slider counterexample. -/
def childValueQ : Child → Option ℚ
  | Child.text _ => none
  | Child.slider c => c.value

/-- Live-slider invariant: the mirrored value is the clamped parse of the
current `value` attribute (every attribute write re-establishes it). -/
def sliderConsistent (c : SliderChild) : Prop :=
  ∀ a, c.valueAttr = some a →
    c.value = jsClampN c.min c.max (if a = "" then some c.min else jsNumber a)

/-- C8 (confirmed): handling `InternalBlur` emits exactly the two
notifications `change` then `blur`, in that order, and performs no state
mutation at all. -/
theorem c8_blur_change_then_blur (s : RootState) :
    handleInternalBlur s = (s, [REvent.change, REvent.blur]) := rfl

/-- C1, amended: the coordinator's `InternalChange` handler ignores the
`disabled` flag entirely — even when `disabled` is set, a payload equal to the
canonical value is dropped, but a differing payload mutates the canonical
value and emits one `input` notification; the `disabled` invariant is
enforced only at the interface layer, not at the coordinator's protocol
boundary. -/
theorem c1_disabled_not_enforced (s : RootState) (children : List Child) (v : String)
    (hdis : s.disabled = true) :
    (v = s.value → handleInternalChange s children v = (s, children, [])) ∧
    (v ≠ s.value →
      (handleInternalChange s children v).1.value = v ∧
      (handleInternalChange s children v).2.2 = [REvent.input]) := by
  constructor
  · intro hv
    simp [handleInternalChange, hv]
  · intro hv
    have : s.value ≠ v := fun h => hv h.symm
    simp [handleInternalChange, this]

/-- Disabled coordinator holding canonical value `"a"`. -/
def rootDis : RootState := {value := "a", valueAttr := some "a", disabled := true}

/-- C1, counterexample to the claim as stated: a disabled coordinator handling
an `InternalChange` with payload `"b"` changes its canonical value to `"b"`
and emits an `input` notification — the mutation is not ignored. -/
theorem c1_disabled_counterexample :
    rootDis.disabled = true ∧
    (handleInternalChange rootDis [] "b").1.value = "b" ∧
    (handleInternalChange rootDis [] "b").1.value ≠ rootDis.value ∧
    (handleInternalChange rootDis [] "b").2.2 = [REvent.input] := by decide

/-- C1, witness: the amended theorem applied to the disabled coordinator and
payload `"b"`. -/
theorem c1_disabled_not_enforced_witness :
    rootDis.disabled = true ∧
    (("b" = rootDis.value → handleInternalChange rootDis [] "b" = (rootDis, [], [])) ∧
      ("b" ≠ rootDis.value →
        (handleInternalChange rootDis [] "b").1.value = "b" ∧
        (handleInternalChange rootDis [] "b").2.2 = [REvent.input])) :=
  ⟨by decide, c1_disabled_not_enforced rootDis [] "b" (by decide)⟩

/-- C5, amended: after the coordinator's value setter runs with a nonempty
numeric string `v`, the canonical value is `v` and the state is pushed to
every child; a text child re-reads exactly `v`, and a slider child re-reads
the number `q = Number(v)` provided its mirrored state was consistent and `q`
lies within its `[min, max]` — out-of-range values are clamped
(see `c5_push_down_counterexample`). -/
theorem c5_push_down (s : RootState) (children : List Child) (v : String) (q : ℚ)
    (hv : v ≠ "") (hq : jsNumber v = some q) :
    (setValueRoot s children v).1.value = v ∧
    (setValueRoot s children v).2 =
      children.map (pushChild v s.disabled s.readonly s.required) ∧
    (∀ t : TextChild, Child.text t ∈ children →
      ∃ t', pushChild v s.disabled s.readonly s.required (Child.text t) = Child.text t' ∧
        textValueGetter t' = v) ∧
    (∀ c : SliderChild, Child.slider c ∈ children → sliderConsistent c →
      c.min ≤ q → q ≤ c.max →
      ∃ c', pushChild v s.disabled s.readonly s.required (Child.slider c) = Child.slider c' ∧
        sliderValueGetter c' = some q) := by
  refine ⟨rfl, rfl, ?_, ?_⟩
  · intro t _
    refine ⟨_, rfl, ?_⟩
    by_cases h : t.valueAttr = some v
    · simp [textValueGetter, h]
    · simp [textValueGetter, textOnValueAttr, h]
  · intro c _ hcons h1 h2
    have hclamp : jsClampN c.min c.max (if v = "" then some c.min else jsNumber v) = some q := by
      rw [if_neg hv, hq]
      simp [jsClampN, jsClamp_eq_self h1 h2]
    refine ⟨_, rfl, ?_⟩
    by_cases h : c.valueAttr = some v
    · have hval : c.value = some q := by rw [hcons v h, hclamp]
      simp [sliderValueGetter, h, hval]
    · simp [sliderValueGetter, sliderOnValueAttr, h, hclamp]

/-- Coordinator holding `"0"`, as in the demo markup. -/
def root0 : RootState := {value := "0", valueAttr := some "0"}

/-- Default-configured slider child (`min 0, max 100, step 1`) mirroring `"0"`. -/
def sliderChild0 : SliderChild := {valueAttr := some "0"}

/-- Text child mirroring `"0"`. -/
def textChild0 : TextChild := {valueAttr := some "0", inputValue := "0"}

/-- A text child and a slider child under one coordinator. -/
def rootChildren : List Child := [Child.text textChild0, Child.slider sliderChild0]

/-- C5, counterexample to the claim as stated: pushing `"150"` to a slider
child with `max = 100` stores canonical `"150"` but the slider re-reads its
clamped mirror `100`, not `150` — push-down consistency fails for values
outside the slider's range. -/
theorem c5_push_down_counterexample :
    (setValueRoot root0 [Child.slider sliderChild0] "150").1.value = "150" ∧
    (setValueRoot root0 [Child.slider sliderChild0] "150").2.map childValueQ =
      [jsClampN 0 100 (jsNumber "150")] ∧
    jsClampN 0 100 (jsNumber "150") = some 100 ∧
    jsNumber "150" = some 150 ∧ (100 : ℚ) ≠ 150 := by
  refine ⟨rfl, rfl, ?_, ?_, by norm_num⟩
  · rw [show jsNumber "150" = some ((1:ℚ) * ((150:Nat):ℚ)) from rfl]
    norm_num [jsClampN, jsMin, jsMax]
  · rw [show jsNumber "150" = some ((1:ℚ) * ((150:Nat):ℚ)) from rfl]
    norm_num

/-- C5, witness: the amended push-down theorem applied to the concrete
coordinator with a text child and a slider child, pushing the in-range value
`"50"`. -/
theorem c5_push_down_witness :
    (("50":String) ≠ "" ∧ jsNumber "50" = some 50) ∧
    ((setValueRoot root0 rootChildren "50").1.value = "50" ∧
      (setValueRoot root0 rootChildren "50").2 =
        rootChildren.map (pushChild "50" root0.disabled root0.readonly root0.required) ∧
      (∀ t : TextChild, Child.text t ∈ rootChildren →
        ∃ t', pushChild "50" root0.disabled root0.readonly root0.required (Child.text t) =
          Child.text t' ∧ textValueGetter t' = "50") ∧
      (∀ c : SliderChild, Child.slider c ∈ rootChildren → sliderConsistent c →
        c.min ≤ 50 → (50:ℚ) ≤ c.max →
        ∃ c', pushChild "50" root0.disabled root0.readonly root0.required (Child.slider c) =
          Child.slider c' ∧ sliderValueGetter c' = some 50)) :=
  ⟨⟨by decide, by rw [show jsNumber "50" = some ((1:ℚ) * ((50:Nat):ℚ)) from rfl]; norm_num⟩,
    c5_push_down root0 rootChildren "50" 50 (by decide)
      (by rw [show jsNumber "50" = some ((1:ℚ) * ((50:Nat):ℚ)) from rfl]; norm_num)⟩

/-!
## InputSlider.#handleKeyDown
(src/custom-elements/Input/input-text.js, lines 493–540)

The keyboard handler reads and writes the slider's own numeric state.  After
computing `newValue` the source sets `#value = newValue` and writes the
`value` attribute; that write synchronously re-runs the attribute callback,
which re-clamps `#value` into `[min, max]` before `aria-valuenow`, the thumb
position and the event detail are produced from it.  The net effect of that
synchronous cascade is modelled here; values are rationals (a `NaN`-holding
slider is outside this model's scope). -/

/-- Keys `#handleKeyDown` distinguishes (`other` covers everything else, which
leaves `newValue` at the current value). -/
inductive IKey
  | arrowRight | arrowUp | arrowLeft | arrowDown | homeKey | endKey | pageUp | pageDown | other
deriving DecidableEq

/-- The slider's internal protocol notification, carrying the value. -/
inductive IEvent
  | internalChange (value : ℚ)
deriving DecidableEq

/-- Interaction-facing state of an `input-slider`: configuration, numeric
value, the numeric content of the `value` attribute, `aria-valuenow`, the
thumb's `left` percentage, and the suppression flags. -/
structure InputSliderState where
  min : ℚ := 0
  max : ℚ := 100
  step : ℚ := 1
  value : ℚ := 0
  valueAttrN : Option ℚ := none
  ariaValueNow : Option ℚ := none
  thumbLeft : Option ℚ := none
  disabled : Bool := false
  readonly : Bool := false
deriving DecidableEq

/-- `#updatePosition`: thumb `left` percentage `(value - min) / (max - min) * 100`. -/
def updatePositionPct (c : InputSliderState) : ℚ :=
  (c.value - c.min) / (c.max - c.min) * 100

/-- The `switch (event.key)` of `#handleKeyDown` computing `newValue`. -/
def keydownNewValue (s : InputSliderState) (k : IKey) : ℚ :=
  match k with
  | IKey.arrowRight | IKey.arrowUp => jsMin s.max (s.value + s.step)
  | IKey.arrowLeft | IKey.arrowDown => jsMax s.min (s.value - s.step)
  | IKey.homeKey => s.min
  | IKey.endKey => s.max
  | IKey.pageUp => jsMin s.max (s.value + s.step * 10)
  | IKey.pageDown => jsMax s.min (s.value - s.step * 10)
  | IKey.other => s.value

/-- `#handleKeyDown`: early return when disabled or readonly; otherwise, only
when `newValue !== #value`, write value/attribute (the attribute callback
re-clamps), refresh `aria-valuenow` and the thumb, and dispatch one
`InternalChange` carrying the (re-clamped) value. -/
def handleKeyDown (s : InputSliderState) (k : IKey) : InputSliderState × List IEvent :=
  if s.disabled || s.readonly then (s, [])
  else
    let newValue := keydownNewValue s k
    if newValue ≠ s.value then
      let clamped := jsMax s.min (jsMin s.max newValue)
      let s1 : InputSliderState :=
        {s with value := clamped, valueAttrN := some newValue, ariaValueNow := some clamped}
      let s2 : InputSliderState := {s1 with thumbLeft := some (updatePositionPct s1)}
      (s2, [IEvent.internalChange clamped])
    else (s, [])

theorem keydownNewValue_range (s : InputSliderState) (k : IKey)
    (hlo : s.min ≤ s.value) (hhi : s.value ≤ s.max) (hstep : 0 ≤ s.step) :
    s.min ≤ keydownNewValue s k ∧ keydownNewValue s k ≤ s.max := by
  have hmm : s.min ≤ s.max := le_trans hlo hhi
  have h10 : 0 ≤ s.step * 10 := by linarith
  cases k <;> constructor <;>
    simp only [keydownNewValue, jsMin, jsMax] <;> first | linarith | (split_ifs <;> linarith)

/-- C10 (confirmed): for a slider in a consistent state (`min ≤ value ≤ max`,
`step ≥ 0`), the keyboard handler dispatches an `InternalChange` if and only
if the key press actually changes the value; when the computed new value
equals the current value (ArrowUp/PageUp/End at max, ArrowDown/PageDown/Home
at min, unrecognised keys, or a suppressed slider) nothing is dispatched and
the value, attributes and thumb position are all untouched. -/
theorem c10_keydown_emits_iff_changes (s : InputSliderState) (k : IKey)
    (hlo : s.min ≤ s.value) (hhi : s.value ≤ s.max) (hstep : 0 ≤ s.step) :
    ((handleKeyDown s k).2 = [] ↔ (handleKeyDown s k).1.value = s.value) ∧
    ((handleKeyDown s k).2 = [] → (handleKeyDown s k).1 = s) ∧
    ((handleKeyDown s k).2 ≠ [] →
      (handleKeyDown s k).2 = [IEvent.internalChange ((handleKeyDown s k).1.value)] ∧
      (handleKeyDown s k).1.value ≠ s.value) := by
  by_cases hdr : (s.disabled || s.readonly) = true
  · simp [handleKeyDown, hdr]
  · obtain ⟨h1, h2⟩ := keydownNewValue_range s k hlo hhi hstep
    by_cases hne : keydownNewValue s k = s.value
    · simp [handleKeyDown, hdr, hne]
    · have hclamped : jsMax s.min (jsMin s.max (keydownNewValue s k)) = keydownNewValue s k :=
        jsClamp_eq_self h1 h2
      simp [handleKeyDown, hdr, hne, hclamped]

/-- Default slider sitting at its maximum. -/
def sliderAtMax : InputSliderState := {value := 100}

/-- C10, witness: the theorem applied to a slider at `max` receiving ArrowUp —
the computed value equals the current one, so nothing is emitted and the state
is untouched. -/
theorem c10_keydown_emits_iff_changes_witness :
    (sliderAtMax.min ≤ sliderAtMax.value ∧ sliderAtMax.value ≤ sliderAtMax.max ∧
      (0:ℚ) ≤ sliderAtMax.step) ∧
    (((handleKeyDown sliderAtMax IKey.arrowUp).2 = [] ↔
        (handleKeyDown sliderAtMax IKey.arrowUp).1.value = sliderAtMax.value) ∧
      ((handleKeyDown sliderAtMax IKey.arrowUp).2 = [] →
        (handleKeyDown sliderAtMax IKey.arrowUp).1 = sliderAtMax) ∧
      ((handleKeyDown sliderAtMax IKey.arrowUp).2 ≠ [] →
        (handleKeyDown sliderAtMax IKey.arrowUp).2 =
          [IEvent.internalChange ((handleKeyDown sliderAtMax IKey.arrowUp).1.value)] ∧
        (handleKeyDown sliderAtMax IKey.arrowUp).1.value ≠ sliderAtMax.value)) :=
  ⟨⟨by norm_num [sliderAtMax], by norm_num [sliderAtMax], by norm_num [sliderAtMax]⟩,
    c10_keydown_emits_iff_changes sliderAtMax IKey.arrowUp
      (by norm_num [sliderAtMax]) (by norm_num [sliderAtMax]) (by norm_num [sliderAtMax])⟩

end GrokElements
